import Mathlib

set_option maxRecDepth 8192

/-!
Verification development for the fhevm-universal-sdk core
(`packages/fhevm-sdk/src/core/client.ts`, `packages/fhevm-sdk/src/internal/fhevm.ts`,
the decryption manager and the encryption helpers).

The TypeScript code is shallowly embedded: the single-threaded event-loop
semantics of the client is modelled as a step function over an explicit
client state, asynchronous external calls are modelled by environment
records that fix their outcomes, and cooperative cancellation is modelled
by the index of the await boundary at which the abort signal becomes set.
-/

namespace FhevmSDK

/-! ## Session Client state machine (core/client.ts, class FHEVMClient)

JS is single threaded: code between two `await` boundaries runs atomically.
Each operation of the client that runs without an intervening `await`
(the synchronous prelude of `init()`, `abort()`, `dispose()`, the
settlement of the factory promise, and the resumption of `init()` after
its `await`) is one atomic step of the model. -/

namespace ClientSM

/-- `FHEVMClientStatus` (client.ts lines 36-40). -/
inductive Status
  | idle
  | initializing
  | ready
  | error
deriving DecidableEq, Repr

/-- Outcome of a settled `createFhevmInstance` promise. -/
inductive Outcome
  | okRes        -- resolved with an instance
  | failedRes    -- rejected with an ordinary error
  | abortedRes   -- rejected with `FhevmAbortError`
deriving DecidableEq, Repr

/-- Phase of an in-flight `init()`: its factory promise is either still
pending or settled but with the `await` continuation not yet run. -/
inductive Phase
  | inflight
  | settledP (o : Outcome)
deriving DecidableEq, Repr

/-- State of one `FHEVMClient` object.  `inst` is whether `this.instance`
is set, `ctrl` the id of `this.abortController` (if any), `abortedIds`
the ids of the controllers whose signal has been aborted, `pendings` the
factory calls in flight (keyed by the id of the controller whose signal
they carry), `err` whether `this._error` is set. -/
structure Client where
  status : Status
  inst : Bool
  ctrl : Option Nat
  nextId : Nat
  abortedIds : List Nat
  pendings : List (Nat × Phase)
  err : Bool
deriving DecidableEq, Repr

/-- A freshly constructed client (constructor with `autoInit` false). -/
def c0 : Client :=
  { status := .idle, inst := false, ctrl := none, nextId := 0
    abortedIds := [], pendings := [], err := false }

/-- What the synchronous prelude of `init()` did. -/
inductive InitOutcome
  | threwAlreadyInitializing  -- `throw new Error("Already initializing")`
  | alreadyReady              -- early `return` when status is "ready"
  | started                   -- proceeded to call the factory
deriving DecidableEq, Repr

/-- Synchronous prelude of `init()` (client.ts lines 182-207): guard
against a second in-flight init, no-op when ready, otherwise set status
to `initializing`, clear the error, allocate a fresh `AbortController`
and start the factory call (recorded as a pending init carrying the new
controller's id). -/
def initCall (c : Client) : Client × InitOutcome :=
  if c.status = .initializing then
    (c, .threwAlreadyInitializing)
  else if c.status = .ready then
    (c, .alreadyReady)
  else
    ({ c with
        status := .initializing
        err := false
        ctrl := some c.nextId
        nextId := c.nextId + 1
        pendings := c.pendings ++ [(c.nextId, .inflight)] },
     .started)

/-- `abort()` (client.ts lines 220-226): abort the current controller's
signal (if one is held), drop the controller reference and force status
back to `idle`.  Note that `this.instance` is NOT cleared. -/
def abortCall (c : Client) : Client :=
  match c.ctrl with
  | some i => { c with abortedIds := i :: c.abortedIds, ctrl := none, status := .idle }
  | none => { c with status := .idle }

/-- Settlement of the factory promise of the pending init whose signal id
is `pid`.  `createFhevmInstance` checks its abort signal after its last
`await` on every return path (proved below for the factory model), and a
signal never becomes un-aborted, so a factory call whose signal was
aborted before its promise settles always rejects with
`FhevmAbortError`; otherwise the environment decides success
(`envOk`). -/
def settleCall (c : Client) (pid : Nat) (envOk : Bool) : Client :=
  { c with
      pendings := c.pendings.map fun p =>
        match p with
        | (i, Phase.inflight) =>
          if i = pid then
            (i, Phase.settledP
              (if c.abortedIds.contains i then Outcome.abortedRes
               else if envOk then Outcome.okRes else Outcome.failedRes))
          else p
        | _ => p }

/-- Remove the settled pending init with signal id `pid`, returning its
outcome, or `none` when there is no such settled entry. -/
def takePending : List (Nat × Phase) → Nat → Option (Outcome × List (Nat × Phase))
  | [], _ => none
  | (i, ph) :: ps, pid =>
    if i = pid then
      match ph with
      | .settledP o => some (o, ps)
      | .inflight => none
    else
      match takePending ps pid with
      | some (o, rest) => some (o, (i, ph) :: rest)
      | none => none

/-- Resumption of `init()` after `await createFhevmInstance(...)`
(client.ts lines 198-214): on a resolved promise store the instance and
set status `ready`; on a rejected promise (including rejection with
`FhevmAbortError`) record the error and set status `error` — the catch
block does not distinguish the abort error. -/
def resumeCall (c : Client) (pid : Nat) : Client :=
  match takePending c.pendings pid with
  | none => c
  | some (o, rest) =>
    match o with
    | .okRes => { c with pendings := rest, inst := true, status := .ready }
    | .failedRes => { c with pendings := rest, err := true, status := .error }
    | .abortedRes => { c with pendings := rest, err := true, status := .error }

/-- `dispose()` (client.ts lines 388-393): `abort()`, clear the instance,
clear the listeners, set status `idle`. -/
def disposeCall (c : Client) : Client :=
  { abortCall c with inst := false, status := .idle }

/-- Synchronous prelude of `reinit()` (client.ts lines 231-240):
`abort()`, clear the instance, then the prelude of `init()`. -/
def reinitCall (c : Client) : Client :=
  (initCall { abortCall c with inst := false }).1

/-- Events of the interleaved execution: each is one atomic synchronous
segment.  `encrypt`/`decrypt` never touch the lifecycle fields (they only
read `this.instance`), so they are identity on this state. -/
inductive Ev
  | startInit
  | abortEv
  | factorySettle (pid : Nat) (envOk : Bool)
  | initResume (pid : Nat)
  | disposeEv
  | reinitStart
  | encryptEv
  | decryptEv
deriving DecidableEq, Repr

/-- One atomic step of the client. -/
def step (c : Client) : Ev → Client
  | .startInit => (initCall c).1
  | .abortEv => abortCall c
  | .factorySettle pid envOk => settleCall c pid envOk
  | .initResume pid => resumeCall c pid
  | .disposeEv => disposeCall c
  | .reinitStart => reinitCall c
  | .encryptEv => c
  | .decryptEv => c

/-- Run a sequence of events. -/
def runEvents (c : Client) (evs : List Ev) : Client :=
  evs.foldl step c

/-- The statuses observed along a run (before and after every event). -/
def statusTrace (c : Client) : List Ev → List Status
  | [] => [c.status]
  | e :: es => c.status :: statusTrace (step c e) es

/-- The `status == ready → a Session is held` half of the spec invariant. -/
def ReadyHasInstance (c : Client) : Prop :=
  c.status = Status.ready → c.inst = true

/-- The abort-then-settle scenario of the spec's abort property: `init()`
starts, `abort()` is called before the factory promise settles, then the
factory call settles and the `init()` continuation runs. -/
def abortScenario (envOk : Bool) : List Ev :=
  [.startInit, .abortEv, .factorySettle 0 envOk, .initResume 0]

end ClientSM

/-! ## Network resolver and session factory (internal/fhevm.ts)

The factory is a pure function of an environment fixing the outcome of
every external asynchronous call, plus the await-boundary index at which
the abort signal becomes set (`none` = never).  Await boundaries are
numbered in the order they complete, starting at 1; a `throwIfAborted()`
checkpoint executed in the synchronous segment following boundary `k`
sees the signal as set iff the abort happened at an index `≤ k`. -/

namespace Fhevm

/-- Asynchronous external steps performed by `createFhevmInstance`, in
the order they can occur. -/
inductive FEffect
  | resolveStep    -- `await resolve(...)` (chain id query inside)
  | web3Probe      -- `web3_clientVersion` RPC (getWeb3Client)
  | metadataProbe  -- `fhevm_relayer_metadata` RPC (getFHEVMRelayerMetadata)
  | mockImport     -- dynamic `import("./mock/fhevmMock")`
  | mockCreate     -- `fhevmMock.fhevmMockCreateInstance(...)`
  | sdkLoad        -- `fhevmLoadSDK()`
  | sdkInit        -- `fhevmInitSDK()`
  | pubKeyGet      -- `publicKeyStorageGet(aclAddress)`
  | createInst     -- `sdk.createInstance(config)`
  | pubKeySet      -- `publicKeyStorageSet(...)`
deriving DecidableEq, Repr

/-- Errors `createFhevmInstance` can propagate. -/
inductive FErr
  | abortError                -- `FhevmAbortError`
  | reactError (code : String) -- `FhevmReactError` with its code
  | invalidAddress            -- `new Error("Invalid address: ...")`
  | envFailure (s : FEffect)  -- an external call rejected
deriving DecidableEq, Repr

/-- The relayer metadata object: each field is `some s` when present with
string value `s`, `none` when missing or non-string. -/
structure MetadataVal where
  aclAddress : Option String
  inputVerifierAddress : Option String
  kmsVerifierAddress : Option String
deriving DecidableEq, Repr

/-- One required-field check of `tryFetchFHEVMHardhatNodeRelayerMetadata`
(fhevm.ts lines 128-154): present, a string, and starting with "0x". -/
def fieldOk : Option String → Bool
  | some s => s.startsWith "0x"
  | none => false

/-- All three required contract-address fields are present and valid. -/
def metadataOk (m : MetadataVal) : Bool :=
  fieldOk m.aclAddress && fieldOk m.inputVerifierAddress && fieldOk m.kmsVerifierAddress

/-- Substring test, used for `version.toLowerCase().includes("hardhat")`. -/
def containsSub (s pat : String) : Bool :=
  s.toList.tails.any fun t => pat.toList.isPrefixOf t

/-- The hardhat test on the `web3_clientVersion` result (fhevm.ts lines
116-122): the result must be a string whose lower case form has
"hardhat" as a substring.  `none` models a non-string RPC result. -/
def isHardhatVersion : Option String → Bool
  | some v => containsSub v.toLower "hardhat"
  | none => false

/-- Result of `resolve` (fhevm.ts lines 178-180). -/
structure ResolveResult where
  isMock : Bool
  chainId : Nat
  rpcUrl : Option String
deriving DecidableEq, Repr

/-- `{ 31337: "http://localhost:8545", ...(mockChains ?? {}) }`
(fhevm.ts lines 193-197): a caller-supplied entry overrides the built-in
default entry for 31337. -/
def mergedMockChains (mockChains : Option (Nat → Option String)) : Nat → Option String :=
  fun c =>
    match (match mockChains with | some m => m c | none => none) with
    | some u => some u
    | none => if c = 31337 then some "http://localhost:8545" else none

/-- `resolve` (fhevm.ts lines 182-209).  `providerUrl` is `some url` when
the provider argument is an RPC-url string; `providerChainId` is the
chain id the provider would report when queried; `explicitChainId` is
used instead of querying when supplied (`explicitChainId ?? await
getChainId(...)`). -/
def resolve (providerUrl : Option String) (providerChainId : Nat)
    (mockChains : Option (Nat → Option String)) (explicitChainId : Option Nat) :
    ResolveResult :=
  let chainId := explicitChainId.getD providerChainId
  match mergedMockChains mockChains chainId with
  | some u => { isMock := true, chainId := chainId, rpcUrl := some (providerUrl.getD u) }
  | none => { isMock := false, chainId := chainId, rpcUrl := providerUrl }

/-- Outcomes of the external asynchronous calls of one factory run.
`web3Probe = .error ()` models an unreachable endpoint (the
`web3_clientVersion` RPC rejecting); `metadataProbe = .error ()` models
the `fhevm_relayer_metadata` RPC rejecting; `.ok none` models a falsy or
non-object metadata result. -/
structure FactoryEnv where
  providerUrl : Option String
  providerChainId : Nat
  mockChains : Option (Nat → Option String)
  explicitChainId : Option Nat
  web3Probe : Except Unit (Option String)
  metadataProbe : Except Unit (Option MetadataVal)
  mockCreateOk : Bool
  sdkLoadOk : Bool
  sdkInitOk : Bool
  aclAddressValid : Bool
  pubKeyGetOk : Bool
  createInstanceOk : Bool
  pubKeySetOk : Bool

/-- Whether the abort signal is set in the synchronous segment following
await boundary `k` (the signal is set during the suspension of boundary
`t` and stays set). -/
def sigAt (abortedAt : Option Nat) (k : Nat) : Bool :=
  match abortedAt with
  | none => false
  | some t => decide (t ≤ k)

/-- A complete factory run: its result (`.ok m` returns a session, `m`
true for the mock session), the external calls it performed in order,
and the index of the last await boundary it passed. -/
structure FactoryRun where
  result : Except FErr Bool
  effects : List FEffect
  segments : Nat
deriving Repr

/-- One stage of the live tail: a `throwIfAborted()` checkpoint, a
synchronous validation throwing `e` when its condition fails, or an
asynchronous external step with its outcome.  Spelling the sequential
code as a stage list keeps the step semantics identical while letting
proofs proceed by induction over the list. -/
inductive Stage
  | check
  | guardSync (ok : Bool) (e : FErr)
  | eff (e : FEffect) (ok : Bool)
deriving DecidableEq, Repr

/-- Run a stage list: a checkpoint throws `FhevmAbortError` when the
signal is set; a failed guard throws its error; an asynchronous step
logs its effect, advances the boundary counter, and propagates its
rejection; an exhausted list returns the (live) session. -/
def runStages (abortedAt : Option Nat) : List Stage → Nat → List FEffect → FactoryRun
  | [], k, effs => ⟨.ok false, effs, k⟩
  | .check :: rest, k, effs =>
    if sigAt abortedAt k then ⟨.error .abortError, effs, k⟩
    else runStages abortedAt rest k effs
  | .guardSync ok e :: rest, k, effs =>
    if ok then runStages abortedAt rest k effs
    else ⟨.error e, effs, k⟩
  | .eff e ok :: rest, k, effs =>
    if ok then runStages abortedAt rest (k + 1) (effs ++ [e])
    else ⟨.error (.envFailure e), effs ++ [e], k + 1⟩

/-- The live (non-mock) tail of `createFhevmInstance` (fhevm.ts lines
267-310) as a stage list, in source order: check the signal (line 267),
load the SDK, check, initialize the SDK, check, validate the ACL
address, fetch the cached public key, check, create the instance,
persist the public key (deliberately BEFORE the next check — "Save the
key even if aborted", lines 301-306), check, return. -/
def liveStages (env : FactoryEnv) : List Stage :=
  [.check,
   .eff .sdkLoad env.sdkLoadOk, .check,
   .eff .sdkInit env.sdkInitOk, .check,
   .guardSync env.aclAddressValid .invalidAddress,
   .eff .pubKeyGet env.pubKeyGetOk, .check,
   .eff .createInst env.createInstanceOk,
   .eff .pubKeySet env.pubKeySetOk, .check]

/-- The live tail entered with `k` await boundaries already passed. -/
def liveRun (env : FactoryEnv) (abortedAt : Option Nat) (k : Nat) (effs : List FEffect) :
    FactoryRun :=
  runStages abortedAt (liveStages env) k effs

/-- `createFhevmInstance` (fhevm.ts lines 211-311).  Boundary 1 is the
`await resolve(...)`.  On a mock chain the `web3_clientVersion` probe
runs next (boundary 2) with NO signal check in between; a probe
rejection propagates as `FhevmReactError("WEB3_CLIENTVERSION_ERROR")`
because `getWeb3Client` is called OUTSIDE the try/catch of
`tryFetchFHEVMHardhatNodeRelayerMetadata` (fhevm.ts line 115).  A
metadata-probe rejection or invalid metadata is caught and yields
`undefined`, falling through to the live tail. -/
def createFhevmInstance (env : FactoryEnv) (abortedAt : Option Nat) : FactoryRun :=
  let r := resolve env.providerUrl env.providerChainId env.mockChains env.explicitChainId
  if r.isMock then
    match env.web3Probe with
    | .error _ =>
      ⟨.error (.reactError "WEB3_CLIENTVERSION_ERROR"), [.resolveStep, .web3Probe], 2⟩
    | .ok version =>
      if !isHardhatVersion version then
        liveRun env abortedAt 2 [.resolveStep, .web3Probe]
      else
        match env.metadataProbe with
        | .error _ => liveRun env abortedAt 3 [.resolveStep, .web3Probe, .metadataProbe]
        | .ok none => liveRun env abortedAt 3 [.resolveStep, .web3Probe, .metadataProbe]
        | .ok (some m) =>
          if !metadataOk m then
            liveRun env abortedAt 3 [.resolveStep, .web3Probe, .metadataProbe]
          else if !env.mockCreateOk then
            ⟨.error (.envFailure .mockCreate),
              [.resolveStep, .web3Probe, .metadataProbe, .mockImport, .mockCreate], 5⟩
          else if sigAt abortedAt 5 then
            ⟨.error .abortError,
              [.resolveStep, .web3Probe, .metadataProbe, .mockImport, .mockCreate], 5⟩
          else
            ⟨.ok true,
              [.resolveStep, .web3Probe, .metadataProbe, .mockImport, .mockCreate], 5⟩
  else
    liveRun env abortedAt 1 [.resolveStep]

/-- An all-succeeding environment on a live (non-mock) chain. -/
def envLive : FactoryEnv :=
  { providerUrl := none, providerChainId := 1, mockChains := none, explicitChainId := none
    web3Probe := .ok none, metadataProbe := .ok none
    mockCreateOk := true, sdkLoadOk := true, sdkInitOk := true
    aclAddressValid := true, pubKeyGetOk := true, createInstanceOk := true, pubKeySetOk := true }

/-- A mock-chain environment whose RPC endpoint is unreachable: the
`web3_clientVersion` probe rejects. -/
def envMockUnreachable : FactoryEnv :=
  { envLive with providerChainId := 31337, web3Probe := .error () }

/-- A mock-chain environment whose endpoint answers the probe but does
not report a Hardhat node. -/
def envMockNotHardhat : FactoryEnv :=
  { envLive with providerChainId := 31337, web3Probe := .ok none }

end Fhevm

/-! ## Decryption manager and client decryption (part_007, client.ts)

`FhevmDecryptionSignature` and `GenericStringInMemoryStorage` are not
part of the sources; their behaviour is modelled from the spec (§4.4,
§6) below.  Everything else is translated from the source. -/

namespace DM

/-- A JavaScript `handle` value: a string, or something that is not a
string (caught by the `typeof req.handle !== "string"` check). -/
inductive Handle
  | strH (s : String)
  | nonString
deriving DecidableEq, Repr

/-- A `DecryptionRequest` (part_007 lines 15-21). -/
structure Request where
  handle : Handle
  contractAddress : String
deriving DecidableEq, Repr

def isHexDigit (c : Char) : Bool :=
  decide (('0' ≤ c ∧ c ≤ '9') ∨ ('a' ≤ c ∧ c ≤ 'f') ∨ ('A' ≤ c ∧ c ≤ 'F'))

/-- The regex `/^0x[0-9a-fA-F]{40}$/` (part_007 line 420). -/
def addressFormatOk (s : String) : Bool :=
  s.startsWith "0x" && decide (s.length = 42) && (s.toList.drop 2).all isHexDigit

/-- `!req.handle || typeof req.handle !== "string"` (part_007 line 411):
valid iff a non-empty string (the empty string is falsy). -/
def handleOk : Handle → Bool
  | .strH s => !s.isEmpty
  | .nonString => false

/-- Validity of one request (handle check plus address check). -/
def reqValid (r : Request) : Bool :=
  handleOk r.handle && addressFormatOk r.contractAddress

/-- A `DecryptionError`, reduced to its `code` field (the human-readable
message strings are elided). -/
structure DecErr where
  code : String
deriving DecidableEq, Repr

/-- `validateRequests` (part_007 lines 409-428): scan the batch in order
and throw a `DecryptionError("INVALID_REQUEST", ...)` at the first
violation; return normally when all requests are valid. -/
def validateRequests : List Request → Option DecErr
  | [] => none
  | r :: rs =>
    if !handleOk r.handle then some ⟨"INVALID_REQUEST"⟩
    else if !addressFormatOk r.contractAddress then some ⟨"INVALID_REQUEST"⟩
    else validateRequests rs

/-- Interactions with the signer, the signature manager and the session
performed by the decryption paths. -/
inductive DEffect
  | getAddress        -- `signer.getAddress()`
  | cacheLoad         -- signature-cache lookup
  | signRequest       -- EIP-712 signature requested from the signer
  | saveSignature     -- persist the artifact to the cache
  | userDecrypt       -- `instance.userDecrypt(...)`
  | publicDecryptCall -- `instance.publicDecrypt(...)`
deriving DecidableEq, Repr

/-- An authorization artifact; `valid` is the outcome of the re-validation
(expiry, address-subset and user checks) of a cached entry. -/
structure Artifact where
  userAddress : String
  valid : Bool
deriving DecidableEq, Repr

/-- The signature cache: a string-keyed store of artifacts
(`GenericStringStorage` of §6, an idempotent key-value store). -/
abbrev SigCache := List (String × Artifact)

/-- Cache key from the deduplicated contract-address set. -/
def mkKey (addrs : List String) : String :=
  String.intercalate "," addrs

/-- A freshly signed artifact. -/
def freshArtifact : Artifact :=
  { userAddress := "user", valid := true }

/-- Modelled from the spec: `FhevmDecryptionSignature.loadOrSign` (§4.4)
is not under the sources (only its callers are).  Per the spec it
attempts a cache load first and independently re-validates a hit; on a
miss or an invalid entry it generates a keypair, requests a signature
over the structured payload from the signer, persists the new artifact,
and returns it — or returns null when the signer declines
(`signOk = false`). -/
def loadOrSign (cache : SigCache) (key : String) (signOk : Bool) :
    Option Artifact × List DEffect :=
  match (cache.find? fun p => p.1 == key).map Prod.snd with
  | some a =>
    if a.valid then (some a, [.getAddress, .cacheLoad])
    else if signOk then (some freshArtifact, [.getAddress, .cacheLoad, .signRequest, .saveSignature])
    else (none, [.getAddress, .cacheLoad, .signRequest])
  | none =>
    if signOk then (some freshArtifact, [.getAddress, .cacheLoad, .signRequest, .saveSignature])
    else (none, [.getAddress, .cacheLoad, .signRequest])

/-- The `DecryptionConfig` of part_007 (lines 36-48): force-refresh flag
and optional caller-supplied signature storage (the keypair option is
immaterial here). -/
structure DecCfg where
  forceRefresh : Bool
  storage : Option SigCache

/-- `DecryptionManager.decrypt` (part_007 lines 96-182): empty-batch
fast path, then `validateRequests`, then the unique contract addresses,
then the signature (forced fresh or `loadOrSign` against the provided or
default storage), then `instance.userDecrypt`, whose rejection is
wrapped as `DecryptionError("DECRYPT_FAILED", ...)`.  `results` is the
value map the backend would return. -/
def DecryptionManager.decrypt (defaultStorage : SigCache) (requests : List Request)
    (cfg : DecCfg) (signOk : Bool) (userDecryptOk : Bool)
    (results : List (String × Nat)) :
    Except DecErr (List (String × Nat)) × List DEffect :=
  if requests.isEmpty then (.ok [], [])
  else
    match validateRequests requests with
    | some e => (.error e, [])
    | none =>
      let addrs := (requests.map (·.contractAddress)).dedup
      let storage := cfg.storage.getD defaultStorage
      let sigStep : Option Artifact × List DEffect :=
        if cfg.forceRefresh then
          if signOk then (some freshArtifact, [.getAddress, .signRequest, .saveSignature])
          else (none, [.getAddress, .signRequest])
        else
          loadOrSign storage (mkKey addrs) signOk
      match sigStep with
      | (none, effs) => (.error ⟨"SIGNATURE_FAILED"⟩, effs)
      | (some _, effs) =>
        if userDecryptOk then (.ok results, effs ++ [.userDecrypt])
        else (.error ⟨"DECRYPT_FAILED"⟩, effs ++ [.userDecrypt])

/-- `DecryptionManager.publicDecrypt` (part_007 lines 345-364):
empty-batch fast path, then `instance.publicDecrypt`, whose rejection is
wrapped as `DecryptionError("PUBLIC_DECRYPT_FAILED", ...)`. -/
def DecryptionManager.publicDecrypt (handles : List String) (backendOk : Bool)
    (results : List (String × Nat)) :
    Except DecErr (List (String × Nat)) × List DEffect :=
  if handles.isEmpty then (.ok [], [])
  else if backendOk then (.ok results, [.publicDecryptCall])
  else (.error ⟨"PUBLIC_DECRYPT_FAILED"⟩, [.publicDecryptCall])

/-- `FHEVMClient.decrypt` (client.ts lines 310-354): `getInstance()`
(throws when no instance is held), empty-batch fast path, unique
contract addresses, `signatureStorage || new GenericStringInMemoryStorage()`
— a brand-new empty in-memory store when the caller supplies none —
then `FhevmDecryptionSignature.loadOrSign` and `instance.userDecrypt`
(whose rejection propagates unwrapped, modelled as a distinct code). -/
def FHEVMClient.decrypt (hasInst : Bool) (requests : List Request)
    (sigStorage : Option SigCache) (signOk : Bool) (userDecryptOk : Bool)
    (results : List (String × Nat)) :
    Except DecErr (List (String × Nat)) × List DEffect :=
  if !hasInst then (.error ⟨"NOT_INITIALIZED"⟩, [])
  else if requests.isEmpty then (.ok [], [])
  else
    let addrs := (requests.map (·.contractAddress)).dedup
    let storage := sigStorage.getD []
    match loadOrSign storage (mkKey addrs) signOk with
    | (none, effs) => (.error ⟨"SIGNATURE_FAILED"⟩, effs)
    | (some _, effs) =>
      if userDecryptOk then (.ok results, effs ++ [.userDecrypt])
      else (.error ⟨"USER_DECRYPT_REJECTED"⟩, effs ++ [.userDecrypt])

end DM

/-! ## Encryption value validation (part_008) -/

namespace Enc

/-- `FHEDataType` (part_008 lines 11-19). -/
inductive FHEDataType
  | boolT
  | uint8
  | uint16
  | uint32
  | uint64
  | uint128
  | uint256
  | address
deriving DecidableEq, Repr

/-- An `EncryptableValue` (part_008 lines 37-41) as a JavaScript value:
a boolean, an integral number, a non-integral number (0.5, NaN, ... —
`Number.isInteger` is false and `BigInt(value)` throws a RangeError), a
bigint, or a string. -/
inductive EncValue
  | boolV (b : Bool)
  | numInt (n : Int)
  | numNonInt
  | bigintV (i : Int)
  | strV (s : String)
deriving DecidableEq, Repr

/-- `validateEncryptionValue` (part_008 lines 306-360).  For uint8/16/32
the value must be a number passing `Number.isInteger` and the range
check; for uint64/128/256 it must be a number or a bigint, converted
with `BigInt(value)` (which THROWS on a non-integral number — modelled
as `.error ()`) and range-checked; for address a string matching the
address regex; for bool a boolean. -/
def validateEncryptionValue (v : EncValue) (t : FHEDataType) : Except Unit Bool :=
  match t with
  | .boolT =>
    .ok (match v with | .boolV _ => true | _ => false)
  | .uint8 =>
    .ok (match v with
      | .numInt n => decide (0 ≤ n ∧ n ≤ 255)
      | _ => false)
  | .uint16 =>
    .ok (match v with
      | .numInt n => decide (0 ≤ n ∧ n ≤ 65535)
      | _ => false)
  | .uint32 =>
    .ok (match v with
      | .numInt n => decide (0 ≤ n ∧ n ≤ 4294967295)
      | _ => false)
  | .uint64 =>
    match v with
    | .numInt n => .ok (decide (0 ≤ n ∧ n ≤ 18446744073709551615))
    | .numNonInt => .error ()
    | .bigintV i => .ok (decide (0 ≤ i ∧ i ≤ 18446744073709551615))
    | _ => .ok false
  | .uint128 =>
    match v with
    | .numInt n => .ok (decide (0 ≤ n ∧ n ≤ 2 ^ 128 - 1))
    | .numNonInt => .error ()
    | .bigintV i => .ok (decide (0 ≤ i ∧ i ≤ 2 ^ 128 - 1))
    | _ => .ok false
  | .uint256 =>
    match v with
    | .numInt n => .ok (decide (0 ≤ n ∧ n ≤ 2 ^ 256 - 1))
    | .numNonInt => .error ()
    | .bigintV i => .ok (decide (0 ≤ i ∧ i ≤ 2 ^ 256 - 1))
    | _ => .ok false
  | .address =>
    .ok (match v with
      | .strV s => DM.addressFormatOk s
      | _ => false)

end Enc

/-! ## Theorems: Session Client state machine -/

namespace ClientSM

theorem abortCall_status (c : Client) : (abortCall c).status = Status.idle := by
  unfold abortCall
  split <;> rfl

theorem initCall_preserves (c : Client) (h : ReadyHasInstance c) :
    ReadyHasInstance (initCall c).1 := by
  unfold initCall
  split
  · exact h
  · split
    · exact h
    · intro hs
      simp at hs

theorem abortCall_preserves (c : Client) : ReadyHasInstance (abortCall c) := by
  intro hs
  rw [abortCall_status] at hs
  cases hs

theorem settleCall_preserves (c : Client) (pid : Nat) (envOk : Bool)
    (h : ReadyHasInstance c) : ReadyHasInstance (settleCall c pid envOk) := by
  intro hs
  simp only [settleCall] at hs ⊢
  exact h hs

theorem resumeCall_preserves (c : Client) (pid : Nat)
    (h : ReadyHasInstance c) : ReadyHasInstance (resumeCall c pid) := by
  unfold resumeCall
  split
  · exact h
  · split <;> intro hs <;> simp at hs ⊢

theorem disposeCall_preserves (c : Client) : ReadyHasInstance (disposeCall c) := by
  intro hs
  simp [disposeCall] at hs

theorem reinitCall_preserves (c : Client) : ReadyHasInstance (reinitCall c) := by
  unfold reinitCall
  apply initCall_preserves
  intro hs
  simp [abortCall_status] at hs

theorem step_preserves (c : Client) (e : Ev) (h : ReadyHasInstance c) :
    ReadyHasInstance (step c e) := by
  cases e with
  | startInit => exact initCall_preserves c h
  | abortEv => exact abortCall_preserves c
  | factorySettle pid envOk => exact settleCall_preserves c pid envOk h
  | initResume pid => exact resumeCall_preserves c pid h
  | disposeEv => exact disposeCall_preserves c
  | reinitStart => exact reinitCall_preserves c
  | encryptEv => exact h
  | decryptEv => exact h

theorem foldl_preserves : ∀ (evs : List Ev) (c : Client),
    ReadyHasInstance c → ReadyHasInstance (List.foldl step c evs)
  | [], _, h => h
  | e :: es, c, h => foldl_preserves es (step c e) (step_preserves c e h)

/-- Claim C2 (corrected, amended): for every sequence of Session Client
operations, if the status is `ready` then a non-null Session is held.
The converse direction of the spec's iff fails — see the
counterexample: `abort()` resets the status to `idle` without clearing
`this.instance`. -/
theorem ready_implies_instance (evs : List Ev)
    (h : (runEvents c0 evs).status = Status.ready) :
    (runEvents c0 evs).inst = true := by
  have h0 : ReadyHasInstance c0 := by
    intro hs
    cases hs
  exact foldl_preserves evs c0 h0 h

/-- Witness for `ready_implies_instance`: after a successful `init()`
the status is `ready` and an instance is held. -/
theorem ready_implies_instance_witness :
    (runEvents c0 [.startInit, .factorySettle 0 true, .initResume 0]).status
        = Status.ready ∧
    (runEvents c0 [.startInit, .factorySettle 0 true, .initResume 0]).inst = true :=
  ⟨by decide, ready_implies_instance [.startInit, .factorySettle 0 true, .initResume 0]
    (by decide)⟩

/-- Counterexample to claim C2 as stated: run `init()` to completion
(status `ready`, instance held), then call `abort()` — the status
becomes `idle` but `this.instance` is still set, so
`status == ready ⟺ Session held` is violated. -/
theorem ready_iff_instance_fails :
    ¬ (((runEvents c0 [.startInit, .factorySettle 0 true, .initResume 0, .abortEv]).status
          = Status.ready)
        ↔ (runEvents c0 [.startInit, .factorySettle 0 true, .initResume 0,
            .abortEv]).inst = true) := by
  decide

/-- Counterexample to claim C1 as stated: start `init()`, call `abort()`
before the factory promise settles, then let it settle — the aborted
factory call rejects with `FhevmAbortError` at its next checkpoint, and
the catch block of `init()` sets the status to `error`, so the status
does NOT remain `idle`. -/
theorem abort_scenario_not_idle :
    (runEvents c0 (abortScenario true)).status = Status.error ∧
    (runEvents c0 (abortScenario true)).status ≠ Status.idle := by
  decide

/-- Claim C1 (corrected, amended): in the abort-before-settlement
scenario the status never flips back to `ready` — whatever the
environment outcome of the factory call would have been, the rejection
handler of `init()` leaves the client in `error` (not `idle`, which is
what the claim stated). -/
theorem abort_scenario_never_ready (envOk : Bool) :
    (runEvents c0 (abortScenario envOk)).status = Status.error ∧
    Status.ready ∉ statusTrace c0 (abortScenario envOk) := by
  cases envOk <;> decide

/-- Claim C5 (confirmed): calling `init()` while the status is
`initializing` throws the distinct "Already initializing" error and
leaves the state unchanged — in particular no new pending factory run
and no new abort controller are created. -/
theorem init_while_initializing_rejected (c : Client)
    (h : c.status = Status.initializing) :
    initCall c = (c, InitOutcome.threwAlreadyInitializing) := by
  unfold initCall
  rw [if_pos h]

/-- Witness for `init_while_initializing_rejected` at the concrete state
reached by starting one `init()`. -/
theorem init_while_initializing_rejected_witness :
    (runEvents c0 [Ev.startInit]).status = Status.initializing ∧
    initCall (runEvents c0 [Ev.startInit])
      = (runEvents c0 [Ev.startInit], InitOutcome.threwAlreadyInitializing) :=
  ⟨by decide, init_while_initializing_rejected _ (by decide)⟩

end ClientSM

/-! ## Theorems: network resolver and session factory -/

namespace Fhevm

theorem runStages_ok_no_abort (a : Option Nat) (b : Bool) :
    ∀ (stages : List Stage) (k : Nat) (effs : List FEffect),
      (runStages a (stages ++ [.check]) k effs).result = Except.ok b →
      sigAt a (runStages a (stages ++ [.check]) k effs).segments = false := by
  intro stages
  induction stages with
  | nil =>
    intro k effs
    simp only [List.nil_append, runStages]
    split
    · intro h
      simp at h
    · intro _
      simp_all
  | cons s rest ih =>
    intro k effs
    cases s with
    | check =>
      simp only [List.cons_append, runStages]
      split
      · intro h
        simp at h
      · exact ih k effs
    | guardSync ok e =>
      simp only [List.cons_append, runStages]
      split
      · exact ih k effs
      · intro h
        simp at h
    | eff e ok =>
      simp only [List.cons_append, runStages]
      split
      · exact ih (k + 1) (effs ++ [e])
      · intro h
        simp at h

theorem runStages_effects_prefix (a : Option Nat) :
    ∀ (stages : List Stage) (k : Nat) (effs : List FEffect),
      ∃ tail, (runStages a stages k effs).effects = effs ++ tail := by
  intro stages
  induction stages with
  | nil =>
    intro k effs
    exact ⟨[], by simp [runStages]⟩
  | cons s rest ih =>
    intro k effs
    cases s with
    | check =>
      simp only [runStages]
      split
      · exact ⟨[], by simp⟩
      · exact ih k effs
    | guardSync ok e =>
      simp only [runStages]
      split
      · exact ih k effs
      · exact ⟨[], by simp⟩
    | eff e ok =>
      simp only [runStages]
      split
      · obtain ⟨t, ht⟩ := ih (k + 1) (effs ++ [e])
        exact ⟨[e] ++ t, by simp [ht]⟩
      · exact ⟨[e], by simp⟩

theorem runStages_effects_mem (a : Option Nat) (x : FEffect) :
    ∀ (stages : List Stage) (k : Nat) (effs : List FEffect),
      x ∈ (runStages a stages k effs).effects →
      x ∈ effs ∨ ∃ ok, Stage.eff x ok ∈ stages := by
  intro stages
  induction stages with
  | nil =>
    intro k effs h
    exact Or.inl (by simpa [runStages] using h)
  | cons s rest ih =>
    intro k effs h
    cases s with
    | check =>
      simp only [runStages] at h
      split at h
      · exact Or.inl (by simpa using h)
      · rcases ih k effs h with h1 | ⟨ok, h2⟩
        · exact Or.inl h1
        · exact Or.inr ⟨ok, by simp [h2]⟩
    | guardSync ok e =>
      simp only [runStages] at h
      split at h
      · rcases ih k effs h with h1 | ⟨ok', h2⟩
        · exact Or.inl h1
        · exact Or.inr ⟨ok', by simp [h2]⟩
      · exact Or.inl (by simpa using h)
    | eff e ok =>
      simp only [runStages] at h
      split at h
      · rcases ih (k + 1) (effs ++ [e]) h with h1 | ⟨ok', h2⟩
        · rcases List.mem_append.mp h1 with h3 | h3
          · exact Or.inl h3
          · refine Or.inr ⟨ok, ?_⟩
            simp only [List.mem_singleton] at h3
            simp [h3]
        · exact Or.inr ⟨ok', by simp [h2]⟩
      · have h' : x ∈ effs ∨ x = e := by simpa using h
        rcases h' with h3 | h3
        · exact Or.inl h3
        · exact Or.inr ⟨ok, by simp [h3]⟩

theorem runStages_no_reactError (a : Option Nat) (code : String) :
    ∀ (stages : List Stage) (k : Nat) (effs : List FEffect),
      (runStages a stages k effs).result = Except.error (FErr.reactError code) →
      ∃ ok, Stage.guardSync ok (FErr.reactError code) ∈ stages := by
  intro stages
  induction stages with
  | nil =>
    intro k effs h
    simp [runStages] at h
  | cons s rest ih =>
    intro k effs h
    cases s with
    | check =>
      simp only [runStages] at h
      split at h
      · simp at h
      · obtain ⟨ok, h2⟩ := ih k effs h
        exact ⟨ok, by simp [h2]⟩
    | guardSync ok e =>
      simp only [runStages] at h
      split at h
      · obtain ⟨ok', h2⟩ := ih k effs h
        exact ⟨ok', by simp [h2]⟩
      · simp only [] at h
        have he : e = FErr.reactError code := by
          simpa using h
        exact ⟨ok, by simp [he]⟩
    | eff e ok =>
      simp only [runStages] at h
      split at h
      · obtain ⟨ok', h2⟩ := ih (k + 1) (effs ++ [e]) h
        exact ⟨ok', by simp [h2]⟩
      · simp at h

theorem liveRun_ok_no_abort (env : FactoryEnv) (abortedAt : Option Nat) (k : Nat)
    (effs : List FEffect) (b : Bool) :
    (liveRun env abortedAt k effs).result = Except.ok b →
    sigAt abortedAt (liveRun env abortedAt k effs).segments = false := by
  unfold liveRun liveStages
  exact runStages_ok_no_abort abortedAt b
    [.check,
     .eff .sdkLoad env.sdkLoadOk, .check,
     .eff .sdkInit env.sdkInitOk, .check,
     .guardSync env.aclAddressValid .invalidAddress,
     .eff .pubKeyGet env.pubKeyGetOk, .check,
     .eff .createInst env.createInstanceOk,
     .eff .pubKeySet env.pubKeySetOk] k effs

theorem runStages_first_eff_mem (x : FEffect) (ok : Bool) (rest : List Stage)
    (k : Nat) (effs : List FEffect) :
    x ∈ (runStages none (.check :: .eff x ok :: rest) k effs).effects := by
  simp [runStages, sigAt]
  split
  · obtain ⟨t, ht⟩ := runStages_effects_prefix none rest (k + 1) (effs ++ [x])
    rw [ht]
    simp
  · simp

theorem liveRun_sdkLoad_mem (env : FactoryEnv) (k : Nat) (effs : List FEffect) :
    FEffect.sdkLoad ∈ (liveRun env none k effs).effects := by
  unfold liveRun liveStages
  exact runStages_first_eff_mem .sdkLoad env.sdkLoadOk
    [.check, .eff .sdkInit env.sdkInitOk, .check,
     .guardSync env.aclAddressValid .invalidAddress,
     .eff .pubKeyGet env.pubKeyGetOk, .check,
     .eff .createInst env.createInstanceOk,
     .eff .pubKeySet env.pubKeySetOk, .check] k effs

theorem liveRun_no_mockCreate (env : FactoryEnv) (abortedAt : Option Nat) (k : Nat)
    (effs : List FEffect) (h : FEffect.mockCreate ∉ effs) :
    FEffect.mockCreate ∉ (liveRun env abortedAt k effs).effects := by
  intro hmem
  rcases runStages_effects_mem abortedAt FEffect.mockCreate (liveStages env) k effs hmem
    with h1 | ⟨ok, h2⟩
  · exact h h1
  · simp [liveStages] at h2

theorem liveRun_no_reactError (env : FactoryEnv) (abortedAt : Option Nat) (k : Nat)
    (effs : List FEffect) (code : String) :
    (liveRun env abortedAt k effs).result ≠ Except.error (FErr.reactError code) := by
  intro h
  obtain ⟨ok, h2⟩ := runStages_no_reactError abortedAt code (liveStages env) k effs h
  simp [liveStages] at h2

theorem liveRun_fallthrough (env : FactoryEnv) (k : Nat) (effs : List FEffect)
    (h : FEffect.mockCreate ∉ effs) :
    FEffect.sdkLoad ∈ (liveRun env none k effs).effects ∧
    FEffect.mockCreate ∉ (liveRun env none k effs).effects ∧
    ∀ code, (liveRun env none k effs).result ≠ Except.error (FErr.reactError code) :=
  ⟨liveRun_sdkLoad_mem env k effs, liveRun_no_mockCreate env none k effs h,
    fun code => liveRun_no_reactError env none k effs code⟩

/-! Shape lemmas: which branch `createFhevmInstance` takes, as equations. -/

theorem createF_eq_nonmock (env : FactoryEnv) (a : Option Nat)
    (hm : (resolve env.providerUrl env.providerChainId env.mockChains
      env.explicitChainId).isMock = false) :
    createFhevmInstance env a = liveRun env a 1 [.resolveStep] := by
  simp [createFhevmInstance, hm]

theorem createF_eq_web3err (env : FactoryEnv) (a : Option Nat) (u : Unit)
    (hm : (resolve env.providerUrl env.providerChainId env.mockChains
      env.explicitChainId).isMock = true)
    (hw : env.web3Probe = Except.error u) :
    createFhevmInstance env a
      = ⟨.error (.reactError "WEB3_CLIENTVERSION_ERROR"), [.resolveStep, .web3Probe], 2⟩ := by
  simp [createFhevmInstance, hm, hw]

theorem createF_eq_live2 (env : FactoryEnv) (a : Option Nat) (v : Option String)
    (hm : (resolve env.providerUrl env.providerChainId env.mockChains
      env.explicitChainId).isMock = true)
    (hw : env.web3Probe = Except.ok v)
    (hh : isHardhatVersion v = false) :
    createFhevmInstance env a = liveRun env a 2 [.resolveStep, .web3Probe] := by
  simp [createFhevmInstance, hm, hw, hh]

theorem createF_eq_live3_mderr (env : FactoryEnv) (a : Option Nat) (v : Option String)
    (u : Unit)
    (hm : (resolve env.providerUrl env.providerChainId env.mockChains
      env.explicitChainId).isMock = true)
    (hw : env.web3Probe = Except.ok v)
    (hh : isHardhatVersion v = true)
    (hmd : env.metadataProbe = Except.error u) :
    createFhevmInstance env a = liveRun env a 3 [.resolveStep, .web3Probe, .metadataProbe] := by
  simp [createFhevmInstance, hm, hw, hh, hmd]

theorem createF_eq_live3_mdnone (env : FactoryEnv) (a : Option Nat) (v : Option String)
    (hm : (resolve env.providerUrl env.providerChainId env.mockChains
      env.explicitChainId).isMock = true)
    (hw : env.web3Probe = Except.ok v)
    (hh : isHardhatVersion v = true)
    (hmd : env.metadataProbe = Except.ok none) :
    createFhevmInstance env a = liveRun env a 3 [.resolveStep, .web3Probe, .metadataProbe] := by
  simp [createFhevmInstance, hm, hw, hh, hmd]

theorem createF_eq_live3_mdbad (env : FactoryEnv) (a : Option Nat) (v : Option String)
    (m : MetadataVal)
    (hm : (resolve env.providerUrl env.providerChainId env.mockChains
      env.explicitChainId).isMock = true)
    (hw : env.web3Probe = Except.ok v)
    (hh : isHardhatVersion v = true)
    (hmd : env.metadataProbe = Except.ok (some m))
    (hmo : metadataOk m = false) :
    createFhevmInstance env a = liveRun env a 3 [.resolveStep, .web3Probe, .metadataProbe] := by
  simp [createFhevmInstance, hm, hw, hh, hmd, hmo]

theorem createF_eq_mock (env : FactoryEnv) (a : Option Nat) (v : Option String)
    (m : MetadataVal)
    (hm : (resolve env.providerUrl env.providerChainId env.mockChains
      env.explicitChainId).isMock = true)
    (hw : env.web3Probe = Except.ok v)
    (hh : isHardhatVersion v = true)
    (hmd : env.metadataProbe = Except.ok (some m))
    (hmo : metadataOk m = true) :
    createFhevmInstance env a =
      (if !env.mockCreateOk then
        ⟨.error (.envFailure .mockCreate),
          [.resolveStep, .web3Probe, .metadataProbe, .mockImport, .mockCreate], 5⟩
      else if sigAt a 5 then
        ⟨.error .abortError,
          [.resolveStep, .web3Probe, .metadataProbe, .mockImport, .mockCreate], 5⟩
      else
        ⟨.ok true,
          [.resolveStep, .web3Probe, .metadataProbe, .mockImport, .mockCreate], 5⟩) := by
  simp [createFhevmInstance, hm, hw, hh, hmd, hmo]

/-- Claim C4 (corrected, amended): whenever `createFhevmInstance`
returns a session, the cancellation token was not set at (or before) any
await boundary of the run — a `throwIfAborted()` checkpoint guards every
return path after its last asynchronous step, so a token set before a
checkpoint always yields an error instead of a session.  (The claim's
stronger statement, a check immediately after EVERY asynchronous step,
is refuted by the counterexample below.) -/
theorem createFhevmInstance_ok_no_abort (env : FactoryEnv) (abortedAt : Option Nat)
    (b : Bool) :
    (createFhevmInstance env abortedAt).result = Except.ok b →
    sigAt abortedAt (createFhevmInstance env abortedAt).segments = false := by
  by_cases hm : (resolve env.providerUrl env.providerChainId env.mockChains
      env.explicitChainId).isMock = true
  · rcases hw : env.web3Probe with u | v
    · rw [createF_eq_web3err env abortedAt u hm hw]
      intro h
      simp at h
    · by_cases hh : isHardhatVersion v = true
      · rcases hmd : env.metadataProbe with u | mo
        · rw [createF_eq_live3_mderr env abortedAt v u hm hw hh hmd]
          exact liveRun_ok_no_abort _ _ _ _ _
        · cases mo with
          | none =>
            rw [createF_eq_live3_mdnone env abortedAt v hm hw hh hmd]
            exact liveRun_ok_no_abort _ _ _ _ _
          | some m =>
            by_cases hmo : metadataOk m = true
            · rw [createF_eq_mock env abortedAt v m hm hw hh hmd hmo]
              split_ifs <;> intro h <;> simp_all
            · have hmo' : metadataOk m = false := by
                simpa using hmo
              rw [createF_eq_live3_mdbad env abortedAt v m hm hw hh hmd hmo']
              exact liveRun_ok_no_abort _ _ _ _ _
      · have hh' : isHardhatVersion v = false := by
          simpa using hh
        rw [createF_eq_live2 env abortedAt v hm hw hh']
        exact liveRun_ok_no_abort _ _ _ _ _
  · have hm' : (resolve env.providerUrl env.providerChainId env.mockChains
        env.explicitChainId).isMock = false := by
      simpa using hm
    rw [createF_eq_nonmock env abortedAt hm']
    exact liveRun_ok_no_abort _ _ _ _ _

/-- Witness for `createFhevmInstance_ok_no_abort`: a fully successful
live run with the token never set. -/
theorem createFhevmInstance_ok_no_abort_witness :
    (createFhevmInstance envLive none).result = Except.ok false ∧
    sigAt none (createFhevmInstance envLive none).segments = false :=
  ⟨rfl, createFhevmInstance_ok_no_abort envLive none false rfl⟩

/-- Counterexample to claim C4 as stated: with the token set during the
suspension of `sdk.createInstance` (await boundary 5), the factory still
performs the next asynchronous step `publicKeyStorageSet` — deliberately,
per the "Save the key even if aborted" comment — before the next
checkpoint raises `FhevmAbortError`.  A check performed immediately
after every asynchronous step would have raised before that save. -/
theorem pubKeySet_runs_after_abort :
    sigAt (some 5) 5 = true ∧
    (createFhevmInstance envLive (some 5)).effects
      = [.resolveStep, .sdkLoad, .sdkInit, .pubKeyGet, .createInst, .pubKeySet] ∧
    (createFhevmInstance envLive (some 5)).result = Except.error FErr.abortError :=
  ⟨rfl, rfl, rfl⟩

/-- Counterexample to claim C3 as stated: on a simulated chain whose
endpoint is unreachable, the `web3_clientVersion` probe rejection
propagates out of `createFhevmInstance` as
`FhevmReactError("WEB3_CLIENTVERSION_ERROR")` — session creation fails
with an error instead of falling through to the live path (the live
path's SDK load is never reached). -/
theorem unreachable_probe_fails_creation :
    (createFhevmInstance envMockUnreachable none).result
      = Except.error (FErr.reactError "WEB3_CLIENTVERSION_ERROR") ∧
    FEffect.sdkLoad ∉ (createFhevmInstance envMockUnreachable none).effects :=
  ⟨rfl, by decide⟩

/-- Claim C3 (corrected, amended): when the `web3_clientVersion` probe
succeeds but the endpoint is not a Hardhat node, or the metadata probe
fails, or the metadata misses one of the three required contract-address
fields, `createFhevmInstance` falls through to the live path (the SDK is
loaded, the simulated session is never constructed) and no probe error
is raised.  Only a failure of the `web3_clientVersion` probe itself
escapes this fallback (see the counterexample). -/
theorem probe_miss_falls_through (env : FactoryEnv) (v : Option String)
    (hmock : (resolve env.providerUrl env.providerChainId env.mockChains
      env.explicitChainId).isMock = true)
    (hw : env.web3Probe = Except.ok v)
    (hmiss : isHardhatVersion v = false
      ∨ env.metadataProbe = Except.error ()
      ∨ env.metadataProbe = Except.ok none
      ∨ ∃ m, env.metadataProbe = Except.ok (some m) ∧ metadataOk m = false) :
    FEffect.sdkLoad ∈ (createFhevmInstance env none).effects ∧
    FEffect.mockCreate ∉ (createFhevmInstance env none).effects ∧
    ∀ code, (createFhevmInstance env none).result ≠ Except.error (FErr.reactError code) := by
  have key : createFhevmInstance env none = liveRun env none 2 [.resolveStep, .web3Probe]
      ∨ createFhevmInstance env none
          = liveRun env none 3 [.resolveStep, .web3Probe, .metadataProbe] := by
    by_cases hh : isHardhatVersion v = true
    · rcases hmiss with h1 | h2 | h3 | ⟨m, hmR, hmo⟩
      · rw [h1] at hh
        cases hh
      · exact Or.inr (createF_eq_live3_mderr env none v () hmock hw hh h2)
      · exact Or.inr (createF_eq_live3_mdnone env none v hmock hw hh h3)
      · exact Or.inr (createF_eq_live3_mdbad env none v m hmock hw hh hmR hmo)
    · have hh' : isHardhatVersion v = false := by
        simpa using hh
      exact Or.inl (createF_eq_live2 env none v hmock hw hh')
  rcases key with hk | hk <;> rw [hk]
  · exact liveRun_fallthrough env 2 _ (by decide)
  · exact liveRun_fallthrough env 3 _ (by decide)

/-- Witness for `probe_miss_falls_through`: a mock chain whose endpoint
answers the probe but is not a Hardhat node falls through to the live
path. -/
theorem probe_miss_falls_through_witness :
    FEffect.sdkLoad ∈ (createFhevmInstance envMockNotHardhat none).effects ∧
    FEffect.mockCreate ∉ (createFhevmInstance envMockNotHardhat none).effects := by
  have h := probe_miss_falls_through envMockNotHardhat none rfl rfl (Or.inl rfl)
  exact ⟨h.1, h.2.1⟩

theorem mergedMockChains_isSome (mc : Option (Nat → Option String)) (c : Nat) :
    (mergedMockChains mc c).isSome = true ↔
      (∃ u, (mc.getD fun _ => none) c = some u) ∨ c = 31337 := by
  unfold mergedMockChains
  cases mc with
  | none =>
    by_cases h : c = 31337 <;> simp [h, Option.getD]
  | some m =>
    cases hm : m c with
    | none =>
      by_cases h : c = 31337
      · subst h
        simp [hm, Option.getD]
      · simp [h, hm, Option.getD]
    | some u => simp [hm, Option.getD]

theorem resolve_isMock_eq (pu : Option String) (pc : Nat)
    (mc : Option (Nat → Option String)) (ec : Option Nat) :
    (resolve pu pc mc ec).isMock = (mergedMockChains mc (ec.getD pc)).isSome := by
  simp only [resolve]
  cases h : mergedMockChains mc (ec.getD pc) <;> simp [h]

/-- Claim C6 (confirmed): `resolve` classifies a network as simulated
iff its resolved chain id is a key of the caller-supplied mock-chains
map merged over the built-in default entry `{31337: "http://localhost:8545"}`;
a supplied explicit chain id is used instead of (and independently of)
the provider's answer; a caller-supplied entry for 31337 overrides the
built-in default value. -/
theorem resolve_spec :
    (∀ pu pc mc ec,
      ((resolve pu pc mc ec).isMock = true ↔
        (∃ u, (mc.getD fun _ => none) (ec.getD pc) = some u) ∨ ec.getD pc = 31337)) ∧
    (∀ pu pc mc e, (resolve pu pc mc (some e)).chainId = e) ∧
    (∀ pu pc pc' mc e, resolve pu pc mc (some e) = resolve pu pc' mc (some e)) ∧
    (resolve none 31337 none none).rpcUrl = some "http://localhost:8545" ∧
    (∀ u, (resolve none 31337 (some fun c => if c = 31337 then some u else none)
      none).rpcUrl = some u) := by
  refine ⟨?_, ?_, ?_, rfl, ?_⟩
  · intro pu pc mc ec
    rw [resolve_isMock_eq]
    exact mergedMockChains_isSome mc (ec.getD pc)
  · intro pu pc mc e
    simp only [resolve]
    cases h : mergedMockChains mc ((some e).getD pc) <;> simp [h]
  · intro pu pc pc' mc e
    rfl
  · intro u
    simp [resolve, mergedMockChains]

end Fhevm

/-! ## Theorems: decryption manager and client decryption -/

namespace DM

theorem validateRequests_invalid (r : Request) :
    ∀ (l : List Request), r ∈ l → reqValid r = false →
      validateRequests l = some ⟨"INVALID_REQUEST"⟩ := by
  intro l
  induction l with
  | nil =>
    intro hmem _
    cases hmem
  | cons a as ih =>
    intro hmem hbad
    unfold validateRequests
    by_cases h1 : handleOk a.handle = true
    · by_cases h2 : addressFormatOk a.contractAddress = true
      · rcases List.mem_cons.mp hmem with rfl | hmem'
        · exfalso
          simp [reqValid, h1, h2] at hbad
        · simp only [h1, h2, Bool.not_true, Bool.false_eq_true, if_false]
          exact ih hmem' hbad
      · have h2' : addressFormatOk a.contractAddress = false := by
          simpa using h2
        simp [h1, h2']
    · have h1' : handleOk a.handle = false := by
        simpa using h1
      simp [h1']

/-- Claim C7 (confirmed): a batch containing a request whose handle is
not a non-empty string or whose contract address fails the canonical
`0x` + 40-hex-digit format makes `DecryptionManager.decrypt` raise the
typed `DecryptionError` with code `INVALID_REQUEST`, with an empty
interaction log — neither the signer nor the session's decrypt
primitive is invoked. -/
theorem decrypt_invalid_rejected (ds : SigCache) (requests : List Request) (cfg : DecCfg)
    (signOk userDecryptOk : Bool) (results : List (String × Nat)) (r : Request)
    (hr : r ∈ requests) (hbad : reqValid r = false) :
    DecryptionManager.decrypt ds requests cfg signOk userDecryptOk results
      = (.error ⟨"INVALID_REQUEST"⟩, []) := by
  have hv := validateRequests_invalid r requests hr hbad
  have hne : requests.isEmpty = false := by
    cases requests
    · cases hr
    · rfl
  simp [DecryptionManager.decrypt, hne, hv]

/-- Witness for `decrypt_invalid_rejected`: a single request with an
empty handle. -/
theorem decrypt_invalid_rejected_witness :
    DecryptionManager.decrypt [] [⟨Handle.strH "", "0xabc"⟩] ⟨false, none⟩ true true []
      = (.error ⟨"INVALID_REQUEST"⟩, []) :=
  decrypt_invalid_rejected [] _ ⟨false, none⟩ true true [] ⟨Handle.strH "", "0xabc"⟩
    (List.mem_singleton.mpr rfl) rfl

/-- Claim C8 (confirmed): `decrypt` on an empty request list,
`publicDecrypt` on an empty handle list, and the client's `decrypt` on
an empty request list each return the empty map with an empty
interaction log — no signer, signature-manager or session-decrypt
calls. -/
theorem empty_batch_noop (ds : SigCache) (cfg : DecCfg) (signOk udOk backendOk : Bool)
    (results : List (String × Nat)) (storage : Option SigCache) :
    DecryptionManager.decrypt ds [] cfg signOk udOk results = (.ok [], []) ∧
    DecryptionManager.publicDecrypt [] backendOk results = (.ok [], []) ∧
    FHEVMClient.decrypt true [] storage signOk udOk results = (.ok [], []) :=
  ⟨rfl, rfl, rfl⟩

/-- Claim C10 (confirmed): `FHEVMClient.decrypt` called without a
`signatureStorage` consults a brand-new empty in-memory store, so the
signature-manager's cache lookup cannot find an artifact from any
earlier call and the signing flow is driven on every such call. -/
theorem clientDecrypt_default_storage_signs (requests : List Request)
    (signOk udOk : Bool) (results : List (String × Nat))
    (hne : requests ≠ []) :
    DEffect.signRequest ∈ (FHEVMClient.decrypt true requests none signOk udOk results).2 := by
  have hempty : requests.isEmpty = false := by
    cases requests
    · cases hne rfl
    · rfl
  cases signOk <;> cases udOk <;> simp [FHEVMClient.decrypt, hempty, loadOrSign]

/-- Witness for `clientDecrypt_default_storage_signs`: a one-request
call without a storage argument requests a signature. -/
theorem clientDecrypt_default_storage_signs_witness :
    DEffect.signRequest ∈
      (FHEVMClient.decrypt true [⟨Handle.strH "0xh", "0xc"⟩] none true true []).2 :=
  clientDecrypt_default_storage_signs [⟨Handle.strH "0xh", "0xc"⟩] true true []
    (by simp)

end DM

/-! ## Theorems: encryption value validation -/

namespace Enc

/-- Claim C9 (confirmed): for every unsigned-integer logical type of
width w in 8/16/32/64/128/256, `validateEncryptionValue` returns true
exactly for values of the allowed numeric form (a number for widths up
to 32, a number or a bigint for the wider widths) whose integer value
lies in [0, 2^w - 1]; in particular uint8 accepts exactly the integers
in [0, 255]. -/
theorem validateEncryptionValue_uint_ranges :
    (∀ v, validateEncryptionValue v .uint8 = .ok true ↔
      ∃ n : Int, v = .numInt n ∧ 0 ≤ n ∧ n ≤ 2 ^ 8 - 1) ∧
    (∀ v, validateEncryptionValue v .uint16 = .ok true ↔
      ∃ n : Int, v = .numInt n ∧ 0 ≤ n ∧ n ≤ 2 ^ 16 - 1) ∧
    (∀ v, validateEncryptionValue v .uint32 = .ok true ↔
      ∃ n : Int, v = .numInt n ∧ 0 ≤ n ∧ n ≤ 2 ^ 32 - 1) ∧
    (∀ v, validateEncryptionValue v .uint64 = .ok true ↔
      ∃ n : Int, (v = .numInt n ∨ v = .bigintV n) ∧ 0 ≤ n ∧ n ≤ 2 ^ 64 - 1) ∧
    (∀ v, validateEncryptionValue v .uint128 = .ok true ↔
      ∃ n : Int, (v = .numInt n ∨ v = .bigintV n) ∧ 0 ≤ n ∧ n ≤ 2 ^ 128 - 1) ∧
    (∀ v, validateEncryptionValue v .uint256 = .ok true ↔
      ∃ n : Int, (v = .numInt n ∨ v = .bigintV n) ∧ 0 ≤ n ∧ n ≤ 2 ^ 256 - 1) := by
  refine ⟨?_, ?_, ?_, ?_, ?_, ?_⟩ <;> intro v <;> cases v <;>
    simp [validateEncryptionValue]

end Enc

end FhevmSDK
